import Mathlib

/-!
Verification of the single-car elevator controller
(`HLS src/elevator_hls.cpp`, `elevator_hls.h`).

The controller is a cycle-driven FSM.  The C++ top function
`elevator_controller` keeps five `static` variables between calls
(`elevator_floor`, `elevator_state`, `elevator_direction`,
`target_floor`, `has_target`); each invocation first checks `reset`,
then runs the request-acceptance block, then the movement/door block,
and finally copies the state to the output ports.

We embed that state as the structure `ElevatorState`, and the body of
one invocation as `elevator_controller : ElevatorState → request_t →
Bool → ElevatorState × Bool` (the `Bool` result is the
`request_accepted` output port; the output ports `current_floor`,
`current_state`, `current_direction` are the fields of the resulting
state).  The two non-reset blocks of the body are embedded separately
as `acceptPhase` (source lines 36–55) and `movePhase` (lines 58–77) so
that theorems can speak about each path of the code, exactly as the
code sequences them.

The hardware type `floor_t` is `ap_uint<4>`: a 4-bit unsigned integer.
We model floors as `Nat` and make the truncation explicit: a value `v`
supplied by the environment is seen by the controller as `floorT v =
v % 16`, and the `++`/`--` on `elevator_floor` wrap modulo 16
(`incFloor` / `decFloor`).  `state_t` (= `ap_uint<2>` holding 0,1,2)
and `direction_t` (= `ap_int<2>` holding -1,0,1) are embedded as the
enumerations below, keeping the source's constant names.
-/

/-- The three values the 2-bit `state_t` takes in the source:
`STATE_IDLE = 0`, `STATE_MOVING = 1`, `STATE_DOOR_OPEN = 2`. -/
inductive state_t where
  | STATE_IDLE : state_t
  | STATE_MOVING : state_t
  | STATE_DOOR_OPEN : state_t
deriving DecidableEq, Repr

/-- The three values the 2-bit signed `direction_t` takes in the source:
`DIR_DOWN = -1`, `DIR_IDLE = 0`, `DIR_UP = 1`. -/
inductive direction_t where
  | DIR_DOWN : direction_t
  | DIR_IDLE : direction_t
  | DIR_UP : direction_t
deriving DecidableEq, Repr

/-- `struct request_t { floor_t floor; bool valid; }`.  The `floor`
field has the 4-bit type `floor_t`; we carry it as a `Nat` and state
the 4-bit bound (`floor < 16`) where a claim depends on it. -/
structure request_t where
  floor : Nat
  valid : Bool
deriving DecidableEq, Repr

/-- The five `static` variables of `elevator_controller`. -/
structure ElevatorState where
  elevator_floor : Nat
  elevator_state : state_t
  elevator_direction : direction_t
  target_floor : Nat
  has_target : Bool
deriving DecidableEq, Repr

/-- Truncation of an environment-supplied value to the 4-bit `floor_t`. -/
def floorT (v : Nat) : Nat := v % 16

/-- `elevator_floor++` on the 4-bit `floor_t`. -/
def incFloor (f : Nat) : Nat := (f + 1) % 16

/-- `elevator_floor--` on the 4-bit `floor_t`. -/
def decFloor (f : Nat) : Nat := (f + 15) % 16

/-- The state written by the reset branch (lines 28–33); it coincides
with the initializers of the `static` variables (lines 20–24). -/
def resetState : ElevatorState :=
  { elevator_floor := 1
    elevator_state := state_t.STATE_IDLE
    elevator_direction := direction_t.DIR_IDLE
    target_floor := 0
    has_target := false }

/-- Request-acceptance block, lines 36–55: accept a new request only
if `valid`, no current target and the state is `STATE_IDLE`, and the
requested floor is in `[1,15]` and differs from the current floor.
Returns the updated state and the `request_accepted` flag. -/
def acceptPhase (s : ElevatorState) (input_request : request_t) :
    ElevatorState × Bool :=
  if input_request.valid = true ∧ s.has_target = false ∧
      s.elevator_state = state_t.STATE_IDLE then
    if 0 < input_request.floor ∧ input_request.floor ≤ 15 ∧
        input_request.floor ≠ s.elevator_floor then
      ({ s with
          target_floor := input_request.floor
          has_target := true
          elevator_direction :=
            if s.elevator_floor < input_request.floor then
              direction_t.DIR_UP
            else
              direction_t.DIR_DOWN
          elevator_state := state_t.STATE_MOVING }, true)
    else
      (s, false)
  else
    (s, false)

/-- Movement/door block, lines 58–77: if a target is held and the
state is `STATE_MOVING`, step the floor one unit toward the target and
set the direction of that move; if the floor now equals the target,
enter `STATE_DOOR_OPEN`, set direction idle and clear the target.
Otherwise, if the state is `STATE_DOOR_OPEN`, return to `STATE_IDLE`. -/
def movePhase (s : ElevatorState) : ElevatorState :=
  if s.has_target = true ∧ s.elevator_state = state_t.STATE_MOVING then
    let s1 :=
      if s.elevator_floor < s.target_floor then
        { s with
            elevator_floor := incFloor s.elevator_floor
            elevator_direction := direction_t.DIR_UP }
      else if s.target_floor < s.elevator_floor then
        { s with
            elevator_floor := decFloor s.elevator_floor
            elevator_direction := direction_t.DIR_DOWN }
      else s
    if s1.elevator_floor = s1.target_floor then
      { s1 with
          elevator_state := state_t.STATE_DOOR_OPEN
          elevator_direction := direction_t.DIR_IDLE
          has_target := false }
    else s1
  else if s.elevator_state = state_t.STATE_DOOR_OPEN then
    { s with elevator_state := state_t.STATE_IDLE }
  else s

/-- One invocation of `elevator_controller`: reset check first, then
the acceptance block, then the movement/door block.  The result is the
state held in the `static` variables when the call returns (which is
what the output ports `current_floor`, `current_state`,
`current_direction` show), paired with `request_accepted`. -/
def elevator_controller (s : ElevatorState) (input_request : request_t)
    (reset : Bool) : ElevatorState × Bool :=
  if reset then
    (resetState, false)
  else
    let a := acceptPhase s input_request
    (movePhase a.1, a.2)

/-- States the controller can actually be in at a cycle boundary:
the initial values of the `static` variables, and anything a further
invocation (with any request and reset input) produces. -/
inductive Reachable : ElevatorState → Prop where
  | init : Reachable resetState
  | step (s : ElevatorState) (input_request : request_t) (reset : Bool) :
      Reachable s → Reachable (elevator_controller s input_request reset).1

/-- The inductive invariant of the controller: the floor stays in
`[1,15]`; a target is held exactly in the moving state; a held target
is a legal floor different from the current one; and the direction is
idle outside the moving state. -/
def CtrlInv (s : ElevatorState) : Prop :=
  1 ≤ s.elevator_floor ∧ s.elevator_floor ≤ 15 ∧
  (s.has_target = true ↔ s.elevator_state = state_t.STATE_MOVING) ∧
  (s.has_target = true →
    1 ≤ s.target_floor ∧ s.target_floor ≤ 15 ∧
    s.target_floor ≠ s.elevator_floor) ∧
  (s.elevator_state ≠ state_t.STATE_MOVING →
    s.elevator_direction = direction_t.DIR_IDLE)

instance (s : ElevatorState) : Decidable (CtrlInv s) := by
  unfold CtrlInv; infer_instance

lemma inv_resetState : CtrlInv resetState := by decide

lemma inv_acceptPhase (s : ElevatorState) (r : request_t) (h : CtrlInv s) :
    CtrlInv (acceptPhase s r).1 := by
  obtain ⟨f, st, d, t, ht⟩ := s
  obtain ⟨h1, h2, h3, h4, h5⟩ := h
  simp only [acceptPhase]
  split
  · split
    · refine ⟨h1, h2, by simp, by simp [CtrlInv]; omega, by simp⟩
    · exact ⟨h1, h2, h3, h4, h5⟩
  · exact ⟨h1, h2, h3, h4, h5⟩

lemma inv_movePhase (s : ElevatorState) (h : CtrlInv s) :
    CtrlInv (movePhase s) := by
  obtain ⟨f, st, d, t, ht⟩ := s
  unfold CtrlInv at h ⊢
  unfold movePhase incFloor decFloor
  cases st <;> cases ht <;> simp_all <;> split_ifs <;> simp_all <;> omega

lemma inv_step (s : ElevatorState) (r : request_t) (b : Bool) (h : CtrlInv s) :
    CtrlInv (elevator_controller s r b).1 := by
  unfold elevator_controller
  split
  · exact inv_resetState
  · exact inv_movePhase _ (inv_acceptPhase s r h)

lemma reachable_inv (s : ElevatorState) (h : Reachable s) : CtrlInv s := by
  induction h with
  | init => exact inv_resetState
  | step s r b _ ih => exact inv_step s r b ih

lemma controller_noreset (s : ElevatorState) (r : request_t) :
    elevator_controller s r false =
      (movePhase (acceptPhase s r).1, (acceptPhase s r).2) := rfl

lemma acceptPhase_rejected (s : ElevatorState) (r : request_t)
    (h : (acceptPhase s r).2 = false) : (acceptPhase s r).1 = s := by
  unfold acceptPhase at h ⊢
  split_ifs at h ⊢ <;> simp_all

lemma movePhase_target (s : ElevatorState) :
    (movePhase s).target_floor = s.target_floor := by
  obtain ⟨f, st, d, t, ht⟩ := s
  unfold movePhase incFloor decFloor
  cases st <;> cases ht <;> simp_all <;> split_ifs <;> simp_all

lemma acceptPhase_accepted (s : ElevatorState) (r : request_t)
    (h : (acceptPhase s r).2 = true) :
    (acceptPhase s r).1 =
      { s with
          target_floor := r.floor
          has_target := true
          elevator_direction :=
            if s.elevator_floor < r.floor then direction_t.DIR_UP
            else direction_t.DIR_DOWN
          elevator_state := state_t.STATE_MOVING } := by
  unfold acceptPhase at h ⊢
  split_ifs at h ⊢ <;> simp_all

/-- C1: with `reset = false`, the request is accepted iff it is valid,
no target is held, the state is `Idle`, and the requested floor is in
`[1,15]` and differs from the current floor; on acceptance the
acceptance block sets the target to the requested floor, the direction
to `Up` when the target is above the current floor and `Down`
otherwise, and the state to `Moving` — and the target output of the
whole invocation is the requested floor.  In particular a request
submitted while the state is not `Idle` is rejected, not queued. -/
theorem C1_acceptance_boundary (s : ElevatorState) (r : request_t) :
    ((elevator_controller s r false).2 = true ↔
      (r.valid = true ∧ s.has_target = false ∧
        s.elevator_state = state_t.STATE_IDLE ∧
        1 ≤ r.floor ∧ r.floor ≤ 15 ∧ r.floor ≠ s.elevator_floor)) ∧
    ((elevator_controller s r false).2 = true →
      ((acceptPhase s r).1 =
        { s with
            target_floor := r.floor
            has_target := true
            elevator_direction :=
              if s.elevator_floor < r.floor then direction_t.DIR_UP
              else direction_t.DIR_DOWN
            elevator_state := state_t.STATE_MOVING } ∧
        (elevator_controller s r false).1.target_floor = r.floor)) := by
  constructor
  · rw [controller_noreset]
    unfold acceptPhase
    split_ifs <;> simp_all <;> omega
  · intro h
    have h2 : (acceptPhase s r).2 = true := h
    refine ⟨acceptPhase_accepted s r h2, ?_⟩
    rw [controller_noreset, movePhase_target, acceptPhase_accepted s r h2]

theorem C1_acceptance_boundary_witness :
    ((elevator_controller resetState { floor := 3, valid := true } false).2 = true ↔
      (true = true ∧ resetState.has_target = false ∧
        resetState.elevator_state = state_t.STATE_IDLE ∧
        1 ≤ 3 ∧ 3 ≤ 15 ∧ 3 ≠ resetState.elevator_floor)) ∧
    ((elevator_controller resetState { floor := 3, valid := true } false).2 = true →
      ((acceptPhase resetState { floor := 3, valid := true }).1 =
        { resetState with
            target_floor := 3
            has_target := true
            elevator_direction :=
              if resetState.elevator_floor < 3 then direction_t.DIR_UP
              else direction_t.DIR_DOWN
            elevator_state := state_t.STATE_MOVING } ∧
        (elevator_controller resetState { floor := 3, valid := true } false).1.target_floor = 3)) :=
  C1_acceptance_boundary resetState { floor := 3, valid := true }

/-- C2: with `reset = true`, from any state and for any request, the
invocation returns the reset state — floor 1, state `Idle`, direction
`Idle`, no target — and `request_accepted = false`; neither the
acceptance block nor the movement/door block contributes. -/
theorem C2_reset_path (s : ElevatorState) (r : request_t) :
    elevator_controller s r true = (resetState, false) ∧
    resetState.elevator_floor = 1 ∧
    resetState.elevator_state = state_t.STATE_IDLE ∧
    resetState.elevator_direction = direction_t.DIR_IDLE ∧
    resetState.has_target = false :=
  ⟨rfl, rfl, rfl, rfl, rfl⟩

/-- C3 (as stated) is false: from the reachable state floor 2, state
`Moving`, direction `Up`, target 3, a valid request for floor 5 is
rejected, yet the invocation still changes the state (the car moves to
floor 3 and opens its door). -/
theorem C3_counterexample :
    Reachable
      { elevator_floor := 2, elevator_state := state_t.STATE_MOVING,
        elevator_direction := direction_t.DIR_UP, target_floor := 3,
        has_target := true } ∧
    (elevator_controller
        { elevator_floor := 2, elevator_state := state_t.STATE_MOVING,
          elevator_direction := direction_t.DIR_UP, target_floor := 3,
          has_target := true }
        { floor := 5, valid := true } false).2 = false ∧
    (elevator_controller
        { elevator_floor := 2, elevator_state := state_t.STATE_MOVING,
          elevator_direction := direction_t.DIR_UP, target_floor := 3,
          has_target := true }
        { floor := 5, valid := true } false).1 ≠
      { elevator_floor := 2, elevator_state := state_t.STATE_MOVING,
        elevator_direction := direction_t.DIR_UP, target_floor := 3,
        has_target := true } := by
  refine ⟨?_, by decide, by decide⟩
  have e : (elevator_controller resetState { floor := 3, valid := true } false).1 =
      { elevator_floor := 2, elevator_state := state_t.STATE_MOVING,
        elevator_direction := direction_t.DIR_UP, target_floor := 3,
        has_target := true } := by decide
  exact e ▸ Reachable.step resetState { floor := 3, valid := true } false Reachable.init

/-- C3 (amended): with `reset = false`, when the request is not
accepted the invocation returns `request_accepted = false` and the
acceptance block leaves the state untouched — the resulting state is
exactly what the movement/door block alone produces from the pre-cycle
state; in particular, when the state is `Idle` the whole state is
unchanged by the invocation. -/
theorem C3_reject_leaves_state_to_movement (s : ElevatorState) (r : request_t)
    (h : (elevator_controller s r false).2 = false) :
    (elevator_controller s r false).1 = movePhase s ∧
    (s.elevator_state = state_t.STATE_IDLE →
      (elevator_controller s r false).1 = s) := by
  have h2 : (acceptPhase s r).2 = false := h
  have e1 : (elevator_controller s r false).1 = movePhase s := by
    rw [controller_noreset, acceptPhase_rejected s r h2]
  refine ⟨e1, ?_⟩
  intro hidle
  rw [e1]
  obtain ⟨f, st, d, t, ht⟩ := s
  simp only at hidle
  subst hidle
  unfold movePhase
  split_ifs <;> simp_all

theorem C3_reject_leaves_state_to_movement_witness :
    (elevator_controller resetState { floor := 1, valid := true } false).1 =
      movePhase resetState ∧
    (resetState.elevator_state = state_t.STATE_IDLE →
      (elevator_controller resetState { floor := 1, valid := true } false).1 =
        resetState) :=
  C3_reject_leaves_state_to_movement resetState { floor := 1, valid := true }
    (by decide)

lemma acceptPhase_not_idle (s : ElevatorState) (r : request_t)
    (h : s.elevator_state ≠ state_t.STATE_IDLE) :
    acceptPhase s r = (s, false) := by
  unfold acceptPhase
  split_ifs <;> simp_all

lemma acceptPhase_conds (s : ElevatorState) (r : request_t)
    (h : (acceptPhase s r).2 = true) :
    r.valid = true ∧ s.has_target = false ∧
    s.elevator_state = state_t.STATE_IDLE ∧
    0 < r.floor ∧ r.floor ≤ 15 ∧ r.floor ≠ s.elevator_floor := by
  unfold acceptPhase at h
  split_ifs at h <;> simp_all

/-- C4: from any reachable state holding a target, a cycle without
reset moves the floor by exactly one unit toward the target
(increment when below, decrement when above), strictly decreasing the
distance to the target by one; and as long as the target has not been
reached, the same target (and the moving state) persists, so this
repeats until the distance is 0. -/
theorem C4_monotonic_approach (s : ElevatorState) (r : request_t)
    (hreach : Reachable s) (htgt : s.has_target = true) :
    (s.elevator_floor < s.target_floor →
      (elevator_controller s r false).1.elevator_floor = s.elevator_floor + 1) ∧
    (s.target_floor < s.elevator_floor →
      (elevator_controller s r false).1.elevator_floor = s.elevator_floor - 1) ∧
    (((elevator_controller s r false).1.elevator_floor : Int) -
        (s.target_floor : Int)).natAbs + 1 =
      ((s.elevator_floor : Int) - (s.target_floor : Int)).natAbs ∧
    ((elevator_controller s r false).1.elevator_floor ≠ s.target_floor →
      ((elevator_controller s r false).1.has_target = true ∧
        (elevator_controller s r false).1.target_floor = s.target_floor ∧
        (elevator_controller s r false).1.elevator_state =
          state_t.STATE_MOVING)) := by
  obtain ⟨h1, h2, h3, h4, h5⟩ := reachable_inv s hreach
  have hst := h3.mp htgt
  obtain ⟨ht1, ht2, ht3⟩ := h4 htgt
  have hrej : acceptPhase s r = (s, false) :=
    acceptPhase_not_idle s r (by rw [hst]; simp)
  rw [controller_noreset, hrej]
  obtain ⟨f, st, d, t, ht⟩ := s
  simp only at hst ht1 ht2 ht3 h1 h2 htgt ⊢
  subst hst
  subst htgt
  unfold movePhase incFloor decFloor
  simp_all
  split_ifs <;> simp_all <;> omega

theorem C4_monotonic_approach_witness :
    (elevator_controller
      { elevator_floor := 2, elevator_state := state_t.STATE_MOVING,
        elevator_direction := direction_t.DIR_UP, target_floor := 4,
        has_target := true }
      { floor := 0, valid := false } false).1.elevator_floor = 3 := by
  have e : (elevator_controller resetState { floor := 4, valid := true } false).1 =
      { elevator_floor := 2, elevator_state := state_t.STATE_MOVING,
        elevator_direction := direction_t.DIR_UP, target_floor := 4,
        has_target := true } := by decide
  have hr := e ▸ Reachable.step resetState { floor := 4, valid := true } false
    Reachable.init
  have h := C4_monotonic_approach
    { elevator_floor := 2, elevator_state := state_t.STATE_MOVING,
      elevator_direction := direction_t.DIR_UP, target_floor := 4,
      has_target := true }
    { floor := 0, valid := false } hr (by decide)
  simpa using h.1 (by decide)

/-- C5: from any reachable state, the cycle whose movement brings the
floor to the held target enters `DoorOpen`; and from any reachable
`DoorOpen` state the next cycle without reset returns to `Idle` with
the floor unchanged — exactly one cycle is spent in `DoorOpen`, with
no intervening `Moving` state. -/
theorem C5_single_dwell (s : ElevatorState) (r : request_t)
    (hreach : Reachable s) :
    (s.has_target = true →
      (elevator_controller s r false).1.elevator_floor = s.target_floor →
      (elevator_controller s r false).1.elevator_state =
        state_t.STATE_DOOR_OPEN) ∧
    (s.elevator_state = state_t.STATE_DOOR_OPEN →
      (elevator_controller s r false).1.elevator_state = state_t.STATE_IDLE ∧
      (elevator_controller s r false).1.elevator_floor = s.elevator_floor) := by
  obtain ⟨h1, h2, h3, h4, h5⟩ := reachable_inv s hreach
  constructor
  · intro htgt harr
    have hst := h3.mp htgt
    obtain ⟨ht1, ht2, ht3⟩ := h4 htgt
    have hrej : acceptPhase s r = (s, false) :=
      acceptPhase_not_idle s r (by rw [hst]; simp)
    rw [controller_noreset, hrej] at harr ⊢
    obtain ⟨f, st, d, t, ht⟩ := s
    simp only at hst ht1 ht2 ht3 h1 h2 htgt harr ⊢
    subst hst
    subst htgt
    unfold movePhase incFloor decFloor at harr ⊢
    simp_all
    split_ifs at harr ⊢ <;> simp_all <;> omega
  · intro hdo
    have hht : s.has_target = false := by
      cases hh : s.has_target
      · rfl
      · rw [h3.mp hh] at hdo
        exact absurd hdo (by simp)
    have hrej : acceptPhase s r = (s, false) :=
      acceptPhase_not_idle s r (by rw [hdo]; simp)
    rw [controller_noreset, hrej]
    obtain ⟨f, st, d, t, ht⟩ := s
    simp only at hdo hht ⊢
    subst hdo
    subst hht
    unfold movePhase
    simp

theorem C5_single_dwell_witness :
    (elevator_controller
      { elevator_floor := 3, elevator_state := state_t.STATE_DOOR_OPEN,
        elevator_direction := direction_t.DIR_IDLE, target_floor := 3,
        has_target := false }
      { floor := 0, valid := false } false).1.elevator_state =
      state_t.STATE_IDLE := by
  have e2 : (elevator_controller resetState { floor := 3, valid := true } false).1 =
      { elevator_floor := 2, elevator_state := state_t.STATE_MOVING,
        elevator_direction := direction_t.DIR_UP, target_floor := 3,
        has_target := true } := by decide
  have e : (elevator_controller
      { elevator_floor := 2, elevator_state := state_t.STATE_MOVING,
        elevator_direction := direction_t.DIR_UP, target_floor := 3,
        has_target := true }
      { floor := 0, valid := false } false).1 =
      { elevator_floor := 3, elevator_state := state_t.STATE_DOOR_OPEN,
        elevator_direction := direction_t.DIR_IDLE, target_floor := 3,
        has_target := false } := by decide
  have hr := e ▸ Reachable.step _ { floor := 0, valid := false } false
    (e2 ▸ Reachable.step resetState { floor := 3, valid := true } false
      Reachable.init)
  exact ((C5_single_dwell _ { floor := 0, valid := false } hr).2 (by decide)).1

/-- C6: in every reachable state at a cycle boundary (the initial
state, states after reset, and states after any invocation), the
direction is `Idle` whenever the motion state is not `Moving`; this
holds of every state the controller can produce, so every operation
preserves it. -/
theorem C6_direction_idle_when_not_moving (s : ElevatorState)
    (hreach : Reachable s)
    (h : s.elevator_state ≠ state_t.STATE_MOVING) :
    s.elevator_direction = direction_t.DIR_IDLE :=
  (reachable_inv s hreach).2.2.2.2 h

theorem C6_direction_idle_when_not_moving_witness :
    resetState.elevator_direction = direction_t.DIR_IDLE :=
  C6_direction_idle_when_not_moving resetState Reachable.init (by decide)

/-- C7: in every reachable state at a cycle boundary a target is held
if and only if the motion state is `Moving`; and in the cycle whose
movement brings the floor to the held target, the target is cleared
(`has_target` becomes false in that same invocation). -/
theorem C7_target_iff_moving (s : ElevatorState) (r : request_t)
    (hreach : Reachable s) :
    (s.has_target = true ↔ s.elevator_state = state_t.STATE_MOVING) ∧
    (s.has_target = true →
      (elevator_controller s r false).1.elevator_floor = s.target_floor →
      (elevator_controller s r false).1.has_target = false) := by
  obtain ⟨h1, h2, h3, h4, h5⟩ := reachable_inv s hreach
  refine ⟨h3, ?_⟩
  intro htgt harr
  have hst := h3.mp htgt
  obtain ⟨ht1, ht2, ht3⟩ := h4 htgt
  have hrej : acceptPhase s r = (s, false) :=
    acceptPhase_not_idle s r (by rw [hst]; simp)
  rw [controller_noreset, hrej] at harr ⊢
  obtain ⟨f, st, d, t, ht⟩ := s
  simp only at hst ht1 ht2 ht3 h1 h2 htgt harr ⊢
  subst hst
  subst htgt
  unfold movePhase incFloor decFloor at harr ⊢
  simp_all
  split_ifs at harr ⊢ <;> simp_all <;> omega

theorem C7_target_iff_moving_witness :
    (elevator_controller
      { elevator_floor := 2, elevator_state := state_t.STATE_MOVING,
        elevator_direction := direction_t.DIR_UP, target_floor := 3,
        has_target := true }
      { floor := 0, valid := false } false).1.has_target = false := by
  have e : (elevator_controller resetState { floor := 3, valid := true } false).1 =
      { elevator_floor := 2, elevator_state := state_t.STATE_MOVING,
        elevator_direction := direction_t.DIR_UP, target_floor := 3,
        has_target := true } := by decide
  have hr := e ▸ Reachable.step resetState { floor := 3, valid := true } false
    Reachable.init
  exact (C7_target_iff_moving _ { floor := 0, valid := false } hr).2
    (by decide) (by decide)

/-- C8: in every reachable state at a cycle boundary the current floor
lies in `[1, 15]`; in particular floor 0 is never reached. -/
theorem C8_floor_in_range (s : ElevatorState) (hreach : Reachable s) :
    1 ≤ s.elevator_floor ∧ s.elevator_floor ≤ 15 :=
  ⟨(reachable_inv s hreach).1, (reachable_inv s hreach).2.1⟩

theorem C8_floor_in_range_witness :
    1 ≤ resetState.elevator_floor ∧ resetState.elevator_floor ≤ 15 :=
  C8_floor_in_range resetState Reachable.init

/-- C9: when a request for a floor exactly one unit away from the
current floor is accepted, the very same invocation already shows the
arrival: the output floor equals the requested floor, the motion state
is `DoorOpen`, the direction is `Idle` and the target is cleared — the
`Moving` state set by the acceptance block is not observable at the
cycle boundary, because the movement block runs in the same
invocation. -/
theorem C9_adjacent_request_same_cycle (s : ElevatorState) (r : request_t)
    (hacc : (elevator_controller s r false).2 = true)
    (hadj : r.floor = s.elevator_floor + 1 ∨ s.elevator_floor = r.floor + 1) :
    (elevator_controller s r false).1.elevator_floor = r.floor ∧
    (elevator_controller s r false).1.elevator_state =
      state_t.STATE_DOOR_OPEN ∧
    (elevator_controller s r false).1.elevator_direction =
      direction_t.DIR_IDLE ∧
    (elevator_controller s r false).1.has_target = false := by
  have h2 : (acceptPhase s r).2 = true := hacc
  obtain ⟨hv, hht, hst, hc1, hc2, hc3⟩ := acceptPhase_conds s r h2
  rw [controller_noreset, acceptPhase_accepted s r h2]
  obtain ⟨f, st, d, t, ht⟩ := s
  simp only at hst hc1 hc2 hc3 hadj ⊢
  unfold movePhase incFloor decFloor
  simp_all
  split_ifs <;> simp_all <;> omega

theorem C9_adjacent_request_same_cycle_witness :
    (elevator_controller resetState { floor := 2, valid := true }
        false).1.elevator_floor = 2 ∧
    (elevator_controller resetState { floor := 2, valid := true }
        false).1.elevator_state = state_t.STATE_DOOR_OPEN ∧
    (elevator_controller resetState { floor := 2, valid := true }
        false).1.elevator_direction = direction_t.DIR_IDLE ∧
    (elevator_controller resetState { floor := 2, valid := true }
        false).1.has_target = false :=
  C9_adjacent_request_same_cycle resetState { floor := 2, valid := true }
    (by decide) (by decide)

/-- C10: a request floor passes through the 4-bit type `floor_t`, so
the controller sees `floorT v = v % 16 ∈ [0, 15]` (a caller value of
16 or more is reduced modulo 16); hence the upper-bound check
`floor <= 15` is always satisfied, and — given a valid request, idle
state and no held target — acceptance is equivalent to the request
floor being nonzero and different from the current floor. -/
theorem C10_floor_t_truncation (s : ElevatorState) (v : Nat) (b : Bool) :
    floorT v ≤ 15 ∧
    ((elevator_controller s { floor := floorT v, valid := b } false).2 = true ↔
      (b = true ∧ s.has_target = false ∧
        s.elevator_state = state_t.STATE_IDLE ∧
        floorT v ≠ 0 ∧ floorT v ≠ s.elevator_floor)) := by
  constructor
  · unfold floorT
    omega
  · rw [controller_noreset]
    unfold acceptPhase floorT
    split_ifs <;> simp_all <;> omega
